import Mathlib

/-!
Verification development for the naming-convention engine of the
nijisanji-voice repository (source files rename_mp3.py and
write_mp3_tags.py).

The Python functions are shallowly embedded as executable Lean
definitions.  Python strings are modelled as Lean `String`
(a list of Unicode code points, matching Python `str` semantics for
indexing, slicing and splitting); the string algorithms are written as
structurally recursive functions over `List Char` so that every
definition evaluates inside the kernel.

File layout: the filename-level Python helpers first, then the NFKC
normalizer model, then the two modules `RenameMp3` and `WriteMp3Tags`,
then supporting lemmas, then one theorem per specification claim.
-/

set_option autoImplicit false

namespace NijisanjiVoice

/-! ## Python string primitives

Structurally recursive models of the Python `str` operations used by the
two scripts: slicing, `split`, and `int()` parsing. -/

/-- Model of the Python slice `s[:-n]` (drop the last `n` code points,
clamping to the empty string). -/
def pySliceDropLast (n : Nat) (l : List Char) : List Char :=
  l.take (l.length - n)

/-- Model of Python `s.split(sep)` for a single-character separator:
splits at every occurrence and keeps empty pieces, so that
`"".split(sep) == [""]` and `"a__b".split("_") == ["a", "", "b"]`. -/
def pySplitOn (sep : Char) : List Char → List (List Char)
  | [] => [[]]
  | c :: rest =>
    if c = sep then
      [] :: pySplitOn sep rest
    else
      match pySplitOn sep rest with
      | [] => [[c]]
      | piece :: pieces => (c :: piece) :: pieces

/-- Model of Python `s.split(" - ")` (the three-character separator used
by write_mp3_tags.parse_file_name): leftmost, non-overlapping matches,
empty pieces kept. -/
def pySplitDash : List Char → List (List Char)
  | ' ' :: '-' :: ' ' :: rest => [] :: pySplitDash rest
  | c :: rest =>
    match pySplitDash rest with
    | [] => [[c]]
    | piece :: pieces => (c :: piece) :: pieces
  | [] => [[]]

/-- Model of Python `s.split(" ", 1)`: split at the first space only;
result has one piece when the string contains no space and exactly two
pieces otherwise. -/
def pySplitSpace1 : List Char → List (List Char)
  | [] => [[]]
  | ' ' :: rest => [[], rest]
  | c :: rest =>
    match pySplitSpace1 rest with
    | [] => [[c]]
    | piece :: pieces => (c :: piece) :: pieces

/-- ASCII decimal digit test, as used by the model of Python `int()`. -/
def pyIsDigit (c : Char) : Bool :=
  '0' ≤ c ∧ c ≤ '9'

/-- Numeric value of an ASCII decimal digit. -/
def pyDigitVal (c : Char) : Nat :=
  c.toNat - '0'.toNat

/-- Digit-run accumulator for the Python `int()` model: after the first
digit, each further digit may be preceded by a single underscore
(Python allows `1_000`), and no other characters are accepted. -/
def pyDigitsAux : List Char → Nat → Option Nat
  | [], acc => some acc
  | '_' :: c :: rest, acc =>
    if pyIsDigit c then pyDigitsAux rest (acc * 10 + pyDigitVal c) else none
  | c :: rest, acc =>
    if pyIsDigit c then pyDigitsAux rest (acc * 10 + pyDigitVal c) else none

/-- Nonempty digit run (with Python underscore grouping) to a natural
number; `none` when the run is empty, starts or ends with an
underscore, or holds a non-digit. -/
def pyDigits : List Char → Option Nat
  | [] => none
  | c :: rest => if pyIsDigit c then pyDigitsAux rest (pyDigitVal c) else none

/-- Strip leading and trailing whitespace, as Python `int()` does before
parsing. -/
def pyStripWS (l : List Char) : List Char :=
  ((l.dropWhile Char.isWhitespace).reverse.dropWhile Char.isWhitespace).reverse

/-- Model of Python `int(s)` restricted to ASCII: optional surrounding
whitespace, an optional sign, then a nonempty digit run (underscore
grouping allowed).  Returns `none` exactly where Python raises
`ValueError`.  (Python additionally accepts non-ASCII decimal digits;
the filenames this tool handles use ASCII track numbers.) -/
def pythonIntParse (l : List Char) : Option Int :=
  match pyStripWS l with
  | '-' :: rest => (pyDigits rest).map (fun n => -(n : Int))
  | '+' :: rest => (pyDigits rest).map (fun n => (n : Int))
  | ds => (pyDigits ds).map (fun n => (n : Int))

/-! ## NFKC normalizer model

Both scripts define `normalize_file_name` as
`unicodedata.normalize('NFKC', file_name)`.  The function is modelled by
the UAX #15 pipeline — full compatibility decomposition, canonical
reordering, canonical composition — instantiated with the Unicode
character data for the repertoire these filenames draw on: fullwidth
alphanumerics, the ideographic space, the halfwidth katakana block
(U+FF61..U+FF9F, including the voicing marks that NFKC turns into the
combining marks U+3099/U+309A), and the precomposed voiced katakana that
canonical composition produces from those marks.  Characters outside
this repertoire decompose to themselves. -/

/-- Association-list lookup over the Unicode data tables. -/
def assocFind {α : Type} : List (Char × α) → Char → Option α
  | [], _ => none
  | (k, v) :: rest, c => if c = k then some v else assocFind rest c

/-- Compatibility/canonical decomposition data: fullwidth digits and
letters (U+FF10.., U+FF21.., U+FF41..), the ideographic space U+3000,
the halfwidth katakana block U+FF61..U+FF9F, and the canonical
decompositions of the precomposed voiced katakana. -/
def decompTable : List (Char × List Char) :=
  [ ('０', ['0']), ('１', ['1']), ('２', ['2']), ('３', ['3']), ('４', ['4']),
    ('５', ['5']), ('６', ['6']), ('７', ['7']), ('８', ['8']), ('９', ['9']),
    ('Ａ', ['A']), ('Ｂ', ['B']), ('Ｃ', ['C']), ('Ｄ', ['D']), ('Ｅ', ['E']),
    ('Ｆ', ['F']), ('Ｇ', ['G']), ('Ｈ', ['H']), ('Ｉ', ['I']), ('Ｊ', ['J']),
    ('Ｋ', ['K']), ('Ｌ', ['L']), ('Ｍ', ['M']), ('Ｎ', ['N']), ('Ｏ', ['O']),
    ('Ｐ', ['P']), ('Ｑ', ['Q']), ('Ｒ', ['R']), ('Ｓ', ['S']), ('Ｔ', ['T']),
    ('Ｕ', ['U']), ('Ｖ', ['V']), ('Ｗ', ['W']), ('Ｘ', ['X']), ('Ｙ', ['Y']),
    ('Ｚ', ['Z']),
    ('ａ', ['a']), ('ｂ', ['b']), ('ｃ', ['c']), ('ｄ', ['d']), ('ｅ', ['e']),
    ('ｆ', ['f']), ('ｇ', ['g']), ('ｈ', ['h']), ('ｉ', ['i']), ('ｊ', ['j']),
    ('ｋ', ['k']), ('ｌ', ['l']), ('ｍ', ['m']), ('ｎ', ['n']), ('ｏ', ['o']),
    ('ｐ', ['p']), ('ｑ', ['q']), ('ｒ', ['r']), ('ｓ', ['s']), ('ｔ', ['t']),
    ('ｕ', ['u']), ('ｖ', ['v']), ('ｗ', ['w']), ('ｘ', ['x']), ('ｙ', ['y']),
    ('ｚ', ['z']),
    ('　', [' ']),
    ('｡', ['。']), ('｢', ['「']), ('｣', ['」']), ('､', ['、']), ('･', ['・']),
    ('ｦ', ['ヲ']), ('ｧ', ['ァ']), ('ｨ', ['ィ']), ('ｩ', ['ゥ']), ('ｪ', ['ェ']),
    ('ｫ', ['ォ']), ('ｬ', ['ャ']), ('ｭ', ['ュ']), ('ｮ', ['ョ']), ('ｯ', ['ッ']),
    ('ｰ', ['ー']), ('ｱ', ['ア']), ('ｲ', ['イ']), ('ｳ', ['ウ']), ('ｴ', ['エ']),
    ('ｵ', ['オ']), ('ｶ', ['カ']), ('ｷ', ['キ']), ('ｸ', ['ク']), ('ｹ', ['ケ']),
    ('ｺ', ['コ']), ('ｻ', ['サ']), ('ｼ', ['シ']), ('ｽ', ['ス']), ('ｾ', ['セ']),
    ('ｿ', ['ソ']), ('ﾀ', ['タ']), ('ﾁ', ['チ']), ('ﾂ', ['ツ']), ('ﾃ', ['テ']),
    ('ﾄ', ['ト']), ('ﾅ', ['ナ']), ('ﾆ', ['ニ']), ('ﾇ', ['ヌ']), ('ﾈ', ['ネ']),
    ('ﾉ', ['ノ']), ('ﾊ', ['ハ']), ('ﾋ', ['ヒ']), ('ﾌ', ['フ']), ('ﾍ', ['ヘ']),
    ('ﾎ', ['ホ']), ('ﾏ', ['マ']), ('ﾐ', ['ミ']), ('ﾑ', ['ム']), ('ﾒ', ['メ']),
    ('ﾓ', ['モ']), ('ﾔ', ['ヤ']), ('ﾕ', ['ユ']), ('ﾖ', ['ヨ']), ('ﾗ', ['ラ']),
    ('ﾘ', ['リ']), ('ﾙ', ['ル']), ('ﾚ', ['レ']), ('ﾛ', ['ロ']), ('ﾜ', ['ワ']),
    ('ﾝ', ['ン']), ('ﾞ', ['゙']), ('ﾟ', ['゚']),
    ('ガ', ['カ', '゙']), ('ギ', ['キ', '゙']), ('グ', ['ク', '゙']),
    ('ゲ', ['ケ', '゙']), ('ゴ', ['コ', '゙']), ('ザ', ['サ', '゙']),
    ('ジ', ['シ', '゙']), ('ズ', ['ス', '゙']), ('ゼ', ['セ', '゙']),
    ('ゾ', ['ソ', '゙']), ('ダ', ['タ', '゙']), ('ヂ', ['チ', '゙']),
    ('ヅ', ['ツ', '゙']), ('デ', ['テ', '゙']), ('ド', ['ト', '゙']),
    ('バ', ['ハ', '゙']), ('パ', ['ハ', '゚']), ('ビ', ['ヒ', '゙']),
    ('ピ', ['ヒ', '゚']), ('ブ', ['フ', '゙']), ('プ', ['フ', '゚']),
    ('ベ', ['ヘ', '゙']), ('ペ', ['ヘ', '゚']), ('ボ', ['ホ', '゙']),
    ('ポ', ['ホ', '゚']), ('ヴ', ['ウ', '゙']) ]

/-- Full decomposition of one character: its table entry, or itself. -/
def decomp (c : Char) : List Char :=
  match assocFind decompTable c with
  | some l => l
  | none => [c]

/-- Full decomposition of a character sequence. -/
def decomposeAll : List Char → List Char
  | [] => []
  | c :: rest => decomp c ++ decomposeAll rest

/-- Canonical combining class: the combining voicing marks U+3099 and
U+309A have class 8; everything in this repertoire else has class 0. -/
def ccc (c : Char) : Nat :=
  if c = '゙' ∨ c = '゚' then 8 else 0

/-- Stable insertion used by the canonical-reordering step: a combining
character moves right past combining characters of strictly smaller
nonzero class, and stops at any starter. -/
def canonicalInsert (c : Char) : List Char → List Char
  | [] => [c]
  | d :: rest =>
    if ccc d ≠ 0 ∧ ccc d < ccc c then d :: canonicalInsert c rest
    else c :: d :: rest

/-- Canonical reordering (UAX #15 step 2): stable sort of each maximal
run of nonzero-combining-class characters by combining class. -/
def reorder : List Char → List Char
  | [] => []
  | c :: rest =>
    if ccc c = 0 then c :: reorder rest
    else canonicalInsert c (reorder rest)

/-- Primary composite data: canonical pairs (base, combining voicing
mark) and their composites. -/
def composeTable : List ((Char × Char) × Char) :=
  [ (('カ', '゙'), 'ガ'), (('キ', '゙'), 'ギ'), (('ク', '゙'), 'グ'),
    (('ケ', '゙'), 'ゲ'), (('コ', '゙'), 'ゴ'), (('サ', '゙'), 'ザ'),
    (('シ', '゙'), 'ジ'), (('ス', '゙'), 'ズ'), (('セ', '゙'), 'ゼ'),
    (('ソ', '゙'), 'ゾ'), (('タ', '゙'), 'ダ'), (('チ', '゙'), 'ヂ'),
    (('ツ', '゙'), 'ヅ'), (('テ', '゙'), 'デ'), (('ト', '゙'), 'ド'),
    (('ハ', '゙'), 'バ'), (('ハ', '゚'), 'パ'), (('ヒ', '゙'), 'ビ'),
    (('ヒ', '゚'), 'ピ'), (('フ', '゙'), 'ブ'), (('フ', '゚'), 'プ'),
    (('ヘ', '゙'), 'ベ'), (('ヘ', '゚'), 'ペ'), (('ホ', '゙'), 'ボ'),
    (('ホ', '゚'), 'ポ'), (('ウ', '゙'), 'ヴ') ]

/-- Pair lookup over the composite data. -/
def composePair (a b : Char) : Option Char :=
  go composeTable a b
where
  /-- Linear scan of the pair table. -/
  go : List ((Char × Char) × Char) → Char → Char → Option Char
    | [], _, _ => none
    | ((k1, k2), v) :: rest, a, b =>
      if a = k1 ∧ b = k2 then some v else go rest a b

/-- Canonical composition pass (UAX #15 step 3): greedily combine each
character with its successor when the pair has a primary composite. -/
def composeGo (a : Char) : List Char → List Char
  | [] => [a]
  | b :: rest =>
    match composePair a b with
    | some c => composeGo c rest
    | none => a :: composeGo b rest

/-- Canonical composition over a whole sequence. -/
def composeAll : List Char → List Char
  | [] => []
  | c :: rest => composeGo c rest

/-- Model of `unicodedata.normalize('NFKC', s)`: full compatibility
decomposition, canonical reordering, canonical composition. -/
def nfkc (s : String) : String :=
  String.mk (composeAll (reorder (decomposeAll s.data)))

/-! ## Module rename_mp3.py -/

namespace RenameMp3

/-- Record returned by rename_mp3.parse_file_name (the script builds a
dict with keys Character, Suffix, IsEX). -/
structure ParsedName where
  Character : String
  Suffix : String
  IsEX : Bool
  deriving DecidableEq, Repr

/-- Embedding of rename_mp3.normalize_file_name (NFKC normalization). -/
def normalize_file_name (file_name : String) : String :=
  nfkc file_name

/-- Embedding of rename_mp3.parse_file_name: the EX_ branch strips the
marker and the slice `[3:-4]`, requiring exactly two underscore
segments; otherwise the slice `[:-4]` must split into two segments, or
into three segments whose first is the literal 01. -/
def parse_file_name (file_name : String) : Option ParsedName :=
  let cs := file_name.data
  if List.isPrefixOf ['E', 'X', '_'] cs then
    match pySplitOn '_' (pySliceDropLast 4 (cs.drop 3)) with
    | [a, b] => some ⟨String.mk a, String.mk b, true⟩
    | _ => none
  else
    match pySplitOn '_' (pySliceDropLast 4 cs) with
    | [a, b] => some ⟨String.mk a, String.mk b, false⟩
    | [a, b, c] =>
      if a = ['0', '1'] then some ⟨String.mk b, String.mk c, false⟩ else none
    | _ => none

/-- Embedding of rename_mp3.generate_new_file_name. -/
def generate_new_file_name (parsed_name : ParsedName) : String :=
  let character := parsed_name.Character
  let suffix := parsed_name.Suffix
  let is_ex := parsed_name.IsEX
  let number := if is_ex then "02" else "01"
  let ex_suffix := if is_ex then " EX" else ""
  "[" ++ suffix ++ "]" ++ character ++ " - " ++ number ++ " " ++ suffix ++
    ex_suffix ++ ".mp3"

/-- Embedding of rename_mp3.get_renamed_files at the level of one
directory listing: normalize each discovered name, parse it, and on a
match pair it with the synthesized target name; non-matching entries
are skipped.  Paths are modelled by filenames since every pair stays in
the parent directory of its source. -/
def get_renamed_files (listing : List String) : List (String × String) :=
  listing.filterMap (fun name =>
    (parse_file_name (normalize_file_name name)).map
      (fun parsed => (name, generate_new_file_name parsed)))

/-- Outcome line printed by rename_mp3.rename_files in dry-run mode. -/
inductive RenameEvent where
  | wouldRename : String → String → RenameEvent
  deriving DecidableEq, Repr

/-- Model of pathlib.Path.rename on POSIX within one directory: fails
(FileNotFoundError) when the source is missing, otherwise removes the
source name and creates the target name, silently replacing an existing
file of that name. -/
def fsRename (fs : List String) (old_name new_name : String) :
    Except String (List String) :=
  if fs.contains old_name then
    Except.ok ((fs.erase old_name).filter (fun x => x ≠ new_name) ++ [new_name])
  else
    Except.error "FileNotFoundError"

/-- Embedding of rename_mp3.rename_files over a directory state:
in dry-run mode each pair only emits a would-rename line; in commit
mode each pair performs the rename, and an error raised by a rename
propagates out of the loop (the script has no try/except), so the
result carries the events so far, the directory state reached, and the
uncaught error if one occurred. -/
def rename_files : List (String × String) → List String → Bool →
    List RenameEvent × List String × Option String
  | [], fs, _ => ([], fs, none)
  | (old_name, new_name) :: rest, fs, dry_run =>
    if dry_run then
      let r := rename_files rest fs dry_run
      (RenameEvent.wouldRename old_name new_name :: r.1, r.2.1, r.2.2)
    else
      match fsRename fs old_name new_name with
      | Except.error e => ([], fs, some e)
      | Except.ok fs2 => rename_files rest fs2 dry_run

end RenameMp3

/-! ## Module write_mp3_tags.py -/

namespace WriteMp3Tags

/-- Embedding of the ID3Tags TypedDict. -/
structure ID3Tags where
  track_name : String
  artist_name : String
  album_name : String
  track_number : Int
  deriving DecidableEq, Repr

/-- Embedding of write_mp3_tags.normalize_file_name (defined in the
script, though its processing pipeline never calls it). -/
def normalize_file_name (file_name : String) : String :=
  nfkc file_name

/-- The EX-marker handling inlined at the end of
write_mp3_tags.extract_track_info: a track name ending in the literal
EX marker gets the artist name in parentheses inserted before the
marker; otherwise the artist name in parentheses is appended. -/
def ex_decorate (track_name artist_name : String) : String :=
  if List.isSuffixOf [' ', 'E', 'X'] track_name.data then
    String.mk (pySliceDropLast 3 track_name.data) ++ " (" ++ artist_name ++ ") EX"
  else
    track_name ++ " (" ++ artist_name ++ ")"

/-- Embedding of write_mp3_tags.extract_track_info: split the track
part at the first space; with no space, return track number 1 and the
whole part with the artist appended; otherwise parse the first piece
with int(), taking the parsed number and the second piece on success
and falling back to 1 and the whole part on ValueError, then apply the
EX-marker handling. -/
def extract_track_info (track_part artist_name : String) : Int × String :=
  match pySplitSpace1 track_part.data with
  | [first, second] =>
    (match pythonIntParse first with
     | some n => (n, ex_decorate (String.mk second) artist_name)
     | none => (1, ex_decorate track_part artist_name))
  | _ => (1, track_part ++ " (" ++ artist_name ++ ")")

/-- Embedding of write_mp3_tags.parse_file_name: require the .mp3
suffix, split the stem on the separator into exactly two parts, require
the first to start with an opening bracket and contain a closing one;
the album is the text inside the brackets, the artist the text after
the closing bracket, and the track fields come from
extract_track_info. -/
def parse_file_name (file_name : String) : Option ID3Tags :=
  let cs := file_name.data
  if List.isSuffixOf ['.', 'm', 'p', '3'] cs then
    match pySplitDash (pySliceDropLast 4 cs) with
    | [prefix_part, track_part] =>
      if List.isPrefixOf ['['] prefix_part then
        match prefix_part.findIdx? (fun c => c = ']') with
        | some i =>
          let album_name := String.mk ((prefix_part.take i).drop 1)
          let artist_name := String.mk (prefix_part.drop (i + 1))
          let r := extract_track_info (String.mk track_part) artist_name
          some ⟨r.2, artist_name, album_name, r.1⟩
        | none => none
      else none
    | _ => none
  else
    none

/-- Per-file state of the ID3 container of an mp3 file: either no ID3
header yet, or a saved tag set. -/
inductive TagFile where
  | noHeader : TagFile
  | tagged : ID3Tags → TagFile
  deriving DecidableEq, Repr

/-- Tag-store state: the files present, each with its container state. -/
abbrev TagFS := List (String × TagFile)

/-- Lookup of a file in the tag store. -/
def findFile : TagFS → String → Option TagFile
  | [], _ => none
  | (k, v) :: rest, p => if p = k then some v else findFile rest p

/-- Replace the container state of a file in the tag store. -/
def setFile (fs : TagFS) (p : String) (t : TagFile) : TagFS :=
  (fs : List (String × TagFile)).map (fun e => if e.1 = p then (p, t) else e)

/-- Outcome lines printed by write_mp3_tags.write_id3_tags. -/
inductive TagEvent where
  | wouldProcess : String → ID3Tags → TagEvent
  | processed : String → TagEvent
  deriving DecidableEq, Repr

/-- Embedding of write_mp3_tags.write_id3_tags: in dry-run mode just
report; otherwise open the container (creating a header when
ID3NoHeaderError is raised), set the four fields and save.  A missing
file makes the container call raise an error the script does not catch.
Returns the emitted events, the updated store, and the uncaught error
if one occurred. -/
def write_id3_tags (fs : TagFS) (file_path : String) (tags : ID3Tags)
    (dry_run : Bool) : List TagEvent × TagFS × Option String :=
  if dry_run then
    ([TagEvent.wouldProcess file_path tags], fs, none)
  else
    match findFile fs file_path with
    | none => ([], fs, some "FileNotFoundError")
    | some _ =>
      ([TagEvent.processed file_path], setFile fs file_path (TagFile.tagged tags), none)

/-- Embedding of the execute_writes closure inside
write_mp3_tags.preview_id3_tags: call write_id3_tags on each planned
item in order; the loop has no try/except, so the first uncaught error
aborts it, leaving the remaining items unexecuted. -/
def execute_writes : List (String × ID3Tags) → TagFS → Bool →
    List TagEvent × TagFS × Option String
  | [], fs, _ => ([], fs, none)
  | (file_path, tags) :: rest, fs, dry_run =>
    let r := write_id3_tags fs file_path tags dry_run
    match r.2.2 with
    | some e => (r.1, r.2.1, some e)
    | none =>
      let r2 := execute_writes rest r.2.1 dry_run
      (r.1 ++ r2.1, r2.2.1, r2.2.2)

/-- Embedding of write_mp3_tags.process_files over one directory
listing: parse each discovered name (the tag pipeline does not
normalize) and keep the matches with their tag records. -/
def process_files (listing : List String) : List (String × ID3Tags) :=
  listing.filterMap (fun name =>
    (parse_file_name name).map (fun tags => (name, tags)))

end WriteMp3Tags

/-! ## Supporting lemmas for the NFKC model -/

theorem assocFind_mem {α : Type} :
    ∀ (t : List (Char × α)) (c : Char) (v : α),
      assocFind t c = some v → (c, v) ∈ t := by
  intro t
  induction t with
  | nil => intro c v h; simp [assocFind] at h
  | cons e rest ih =>
    intro c v h
    obtain ⟨k, w⟩ := e
    by_cases hc : c = k
    · subst hc
      simp [assocFind] at h
      simp [h]
    · simp [assocFind, hc] at h
      exact List.mem_cons_of_mem _ (ih c v h)

set_option maxRecDepth 100000 in
theorem decompTable_closed :
    ∀ p ∈ decompTable, ∀ d ∈ p.2, assocFind decompTable d = none := by
  decide

theorem decomp_of_none {c : Char} (h : assocFind decompTable c = none) :
    decomp c = [c] := by
  simp [decomp, h]

theorem decomp_stable :
    ∀ c d : Char, d ∈ decomp c → decomp d = [d] := by
  intro c d hd
  unfold decomp at hd
  cases h : assocFind decompTable c with
  | none =>
    rw [h] at hd
    simp at hd
    subst hd
    exact decomp_of_none h
  | some l =>
    rw [h] at hd
    have hmem := assocFind_mem decompTable c l h
    exact decomp_of_none (decompTable_closed (c, l) hmem d hd)

theorem decomposeAll_append :
    ∀ u v : List Char, decomposeAll (u ++ v) = decomposeAll u ++ decomposeAll v := by
  intro u v
  induction u with
  | nil => simp [decomposeAll]
  | cons c rest ih => simp [decomposeAll, ih]

theorem decomposeAll_fixed :
    ∀ l : List Char, (∀ d ∈ l, decomp d = [d]) → decomposeAll l = l := by
  intro l
  induction l with
  | nil => intro _; rfl
  | cons c rest ih =>
    intro h
    have hc := h c (List.mem_cons_self c rest)
    have hrest := ih (fun d hd => h d (List.mem_cons_of_mem c hd))
    simp [decomposeAll, hc, hrest]

theorem decomposeAll_idem :
    ∀ l : List Char, decomposeAll (decomposeAll l) = decomposeAll l := by
  intro l
  induction l with
  | nil => rfl
  | cons c rest ih =>
    have hc : decomposeAll (decomp c) = decomp c :=
      decomposeAll_fixed (decomp c) (decomp_stable c)
    simp [decomposeAll, decomposeAll_append, hc, ih]

theorem composePair_mem :
    ∀ (t : List ((Char × Char) × Char)) (a b c : Char),
      composePair.go t a b = some c → ((a, b), c) ∈ t := by
  intro t
  induction t with
  | nil => intro a b c h; simp [composePair.go] at h
  | cons e rest ih =>
    intro a b c h
    obtain ⟨⟨k1, k2⟩, v⟩ := e
    by_cases hk : a = k1 ∧ b = k2
    · obtain ⟨h1, h2⟩ := hk
      subst h1; subst h2
      simp [composePair.go] at h
      simp [h]
    · simp [composePair.go, hk] at h
      exact List.mem_cons_of_mem _ (ih a b c h)

theorem composeTable_ok :
    ∀ p ∈ composeTable,
      decomp p.1.1 = [p.1.1] ∧ decomp p.1.2 = [p.1.2] ∧
        decomp p.2 = [p.1.1, p.1.2] := by
  decide

theorem composePair_decomp {a b c : Char} (h : composePair a b = some c) :
    decomp c = decomp a ++ decomp b := by
  have hmem := composePair_mem composeTable a b c h
  have hok := composeTable_ok ((a, b), c) hmem
  rw [hok.1, hok.2.1, hok.2.2]
  rfl

theorem decomposeAll_composeGo :
    ∀ (l : List Char) (a : Char),
      decomposeAll (composeGo a l) = decomp a ++ decomposeAll l := by
  intro l
  induction l with
  | nil => intro a; simp [composeGo, decomposeAll]
  | cons b rest ih =>
    intro a
    unfold composeGo
    cases h : composePair a b with
    | some c =>
      rw [ih c, composePair_decomp h]
      simp [decomposeAll]
    | none =>
      simp [decomposeAll, ih b]

theorem decomposeAll_composeAll :
    ∀ l : List Char, decomposeAll (composeAll l) = decomposeAll l := by
  intro l
  cases l with
  | nil => rfl
  | cons c rest => exact decomposeAll_composeGo rest c

theorem ccc_zero_or_eight : ∀ c : Char, ccc c = 0 ∨ ccc c = 8 := by
  intro c
  unfold ccc
  by_cases h : c = '゙' ∨ c = '゚' <;> simp [h]

theorem canonicalInsert_cons :
    ∀ (c : Char) (l : List Char), canonicalInsert c l = c :: l := by
  intro c l
  cases l with
  | nil => rfl
  | cons d rest =>
    have : ¬ (ccc d ≠ 0 ∧ ccc d < ccc c) := by
      rcases ccc_zero_or_eight d with hd | hd <;>
        rcases ccc_zero_or_eight c with hc | hc <;> simp [hd, hc]
    simp [canonicalInsert, this]

theorem reorder_id : ∀ l : List Char, reorder l = l := by
  intro l
  induction l with
  | nil => rfl
  | cons c rest ih =>
    by_cases h : ccc c = 0 <;> simp [reorder, h, ih, canonicalInsert_cons]

theorem nfkc_idem : ∀ s : String, nfkc (nfkc s) = nfkc s := by
  intro s
  show String.mk (composeAll (reorder (decomposeAll
      (composeAll (reorder (decomposeAll s.data)))))) =
    String.mk (composeAll (reorder (decomposeAll s.data)))
  rw [reorder_id, reorder_id, decomposeAll_composeAll, decomposeAll_idem]

/-! ## Supporting lemmas for the executors -/

theorem rename_files_dry_run_eq :
    ∀ (items : List (String × String)) (fs : List String),
      RenameMp3.rename_files items fs true =
        (items.map (fun p => RenameMp3.RenameEvent.wouldRename p.1 p.2), fs, none) := by
  intro items
  induction items with
  | nil => intro fs; rfl
  | cons p rest ih =>
    intro fs
    obtain ⟨o, n⟩ := p
    simp [RenameMp3.rename_files, ih fs]

theorem execute_writes_dry_run_eq :
    ∀ (items : List (String × WriteMp3Tags.ID3Tags)) (fs : WriteMp3Tags.TagFS),
      WriteMp3Tags.execute_writes items fs true =
        (items.map (fun p => WriteMp3Tags.TagEvent.wouldProcess p.1 p.2), fs, none) := by
  intro items
  induction items with
  | nil => intro fs; rfl
  | cons p rest ih =>
    intro fs
    obtain ⟨q, t⟩ := p
    simp [WriteMp3Tags.execute_writes, WriteMp3Tags.write_id3_tags, ih fs]

theorem rename_files_cons_commit (old_name new_name : String)
    (items : List (String × String)) (fs : List String) :
    RenameMp3.rename_files ((old_name, new_name) :: items) fs false =
      (match RenameMp3.fsRename fs old_name new_name with
       | Except.error e => ([], fs, some e)
       | Except.ok fs2 => RenameMp3.rename_files items fs2 false) := by
  rfl

theorem execute_writes_cons_commit (p : String) (t : WriteMp3Tags.ID3Tags)
    (items : List (String × WriteMp3Tags.ID3Tags)) (fs : WriteMp3Tags.TagFS) :
    WriteMp3Tags.execute_writes ((p, t) :: items) fs false =
      (match WriteMp3Tags.findFile fs p with
       | none => ([], fs, some "FileNotFoundError")
       | some _ =>
         let fs2 := WriteMp3Tags.setFile fs p (WriteMp3Tags.TagFile.tagged t)
         let r2 := WriteMp3Tags.execute_writes items fs2 false
         (WriteMp3Tags.TagEvent.processed p :: r2.1, r2.2.1, r2.2.2)) := by
  cases h : WriteMp3Tags.findFile fs p <;>
    simp [WriteMp3Tags.execute_writes, WriteMp3Tags.write_id3_tags, h]

theorem rename_files_commit_abort :
    ∀ (pre : List (String × String)) (fs fs2 : List String)
      (old_name new_name e : String) (rest : List (String × String)),
      RenameMp3.rename_files pre fs false = ([], fs2, none) →
      RenameMp3.fsRename fs2 old_name new_name = Except.error e →
      RenameMp3.rename_files (pre ++ (old_name, new_name) :: rest) fs false =
        ([], fs2, some e) := by
  intro pre
  induction pre with
  | nil =>
    intro fs fs2 o n e rest hpre hfail
    simp [RenameMp3.rename_files] at hpre
    subst hpre
    rw [List.nil_append, rename_files_cons_commit, hfail]
  | cons p pre' ih =>
    intro fs fs2 o n e rest hpre hfail
    obtain ⟨q, m⟩ := p
    rw [rename_files_cons_commit] at hpre
    rw [List.cons_append, rename_files_cons_commit]
    cases hq : RenameMp3.fsRename fs q m with
    | error e2 =>
      rw [hq] at hpre
      simp at hpre
    | ok fsq =>
      rw [hq] at hpre
      exact ih fsq fs2 o n e rest hpre hfail

theorem execute_writes_commit_abort :
    ∀ (pre : List (String × WriteMp3Tags.ID3Tags)) (fs fs2 : WriteMp3Tags.TagFS)
      (evs : List WriteMp3Tags.TagEvent) (p : String) (t : WriteMp3Tags.ID3Tags)
      (rest : List (String × WriteMp3Tags.ID3Tags)),
      WriteMp3Tags.execute_writes pre fs false = (evs, fs2, none) →
      WriteMp3Tags.findFile fs2 p = none →
      WriteMp3Tags.execute_writes (pre ++ (p, t) :: rest) fs false =
        (evs, fs2, some "FileNotFoundError") := by
  intro pre
  induction pre with
  | nil =>
    intro fs fs2 evs p t rest hpre hfail
    simp [WriteMp3Tags.execute_writes] at hpre
    obtain ⟨h1, h2⟩ := hpre
    subst h1 h2
    rw [List.nil_append, execute_writes_cons_commit, hfail]
  | cons item pre' ih =>
    intro fs fs2 evs p t rest hpre hfail
    obtain ⟨q, s⟩ := item
    rw [execute_writes_cons_commit] at hpre
    rw [List.cons_append, execute_writes_cons_commit]
    cases hq : WriteMp3Tags.findFile fs q with
    | none =>
      rw [hq] at hpre
      simp at hpre
    | some tf =>
      rw [hq] at hpre
      simp only at hpre ⊢
      cases hE : WriteMp3Tags.execute_writes pre'
          (WriteMp3Tags.setFile fs q (WriteMp3Tags.TagFile.tagged s)) false with
      | mk evs' rest2 =>
        obtain ⟨fs2', err'⟩ := rest2
        rw [hE] at hpre
        simp at hpre
        obtain ⟨hevs, hfs, herr⟩ := hpre
        subst hfs
        subst herr
        rw [ih _ fs2' evs' p t rest hE hfail]
        simp [hevs]

/-! ## Supporting lemmas for the EX-marker rule -/

theorem pySliceDropLast_append (l m : List Char) :
    pySliceDropLast m.length (l ++ m) = l := by
  simp only [pySliceDropLast, List.length_append, Nat.add_sub_cancel]
  exact List.take_left l m

theorem isSuffixOf_append (l m : List Char) :
    List.isSuffixOf m (l ++ m) = true := by
  rw [List.isSuffixOf_iff_suffix]
  exact List.suffix_append l m

/-! ## Claim theorems -/

/-- C1: the specification requires the Rename planner to flag two
distinct sources that synthesize the same target and to report a
plan-level conflict before execution, so that the batch never silently
overwrites and the two operations cannot both succeed.  The code has no
such check: on the listing [01_Alice_Greeting.mp3, Alice_Greeting.mp3]
the planner returns both pairs with the identical target
[Greeting]Alice - 01 Greeting.mp3 and no conflict, and committing the
batch performs both renames without any error, the second one silently
overwriting the first target — the directory ends with one file where
two were planned. -/
theorem collision_not_flagged_silent_overwrite :
    RenameMp3.get_renamed_files ["01_Alice_Greeting.mp3", "Alice_Greeting.mp3"] =
      [("01_Alice_Greeting.mp3", "[Greeting]Alice - 01 Greeting.mp3"),
       ("Alice_Greeting.mp3", "[Greeting]Alice - 01 Greeting.mp3")] ∧
    RenameMp3.rename_files
      [("01_Alice_Greeting.mp3", "[Greeting]Alice - 01 Greeting.mp3"),
       ("Alice_Greeting.mp3", "[Greeting]Alice - 01 Greeting.mp3")]
      ["01_Alice_Greeting.mp3", "Alice_Greeting.mp3"] false =
      ([], ["[Greeting]Alice - 01 Greeting.mp3"], none) :=
  ⟨by decide, by decide⟩

/-- C2 counterexample: on the batch [(a.mp3, x.mp3), (b.mp3, y.mp3)]
over a directory holding only b.mp3, the first rename raises
FileNotFoundError and the loop aborts: the call returns the error, the
directory still holds b.mp3 unrenamed — item 2 was never executed even
though the adjacent fact shows it would have succeeded.  This falsifies
the claim that a failure on item k is recorded as Failed for that item
alone while items k+1..N still execute. -/
theorem commit_failure_abort_counterexample :
    RenameMp3.rename_files [("a.mp3", "x.mp3"), ("b.mp3", "y.mp3")] ["b.mp3"] false =
      ([], ["b.mp3"], some "FileNotFoundError") ∧
    RenameMp3.fsRename ["b.mp3"] "b.mp3" "y.mp3" = Except.ok ["y.mp3"] :=
  ⟨by decide, by rfl⟩

/-- C2 (amended): in commit mode a mutation failure on item k raises an
uncaught error that aborts the batch: the call returns that error,
items k+1 through N are not executed, no per-item Failed outcome is
recorded, and only the effects of items before k persist.  This holds
for both executors (rename_files and the execute_writes loop). -/
theorem commit_failure_aborts_batch :
    (∀ (pre : List (String × String)) (fs fs2 : List String)
       (old_name new_name e : String) (rest : List (String × String)),
      RenameMp3.rename_files pre fs false = ([], fs2, none) →
      RenameMp3.fsRename fs2 old_name new_name = Except.error e →
      RenameMp3.rename_files (pre ++ (old_name, new_name) :: rest) fs false =
        ([], fs2, some e)) ∧
    (∀ (pre : List (String × WriteMp3Tags.ID3Tags)) (fs fs2 : WriteMp3Tags.TagFS)
       (evs : List WriteMp3Tags.TagEvent) (p : String) (t : WriteMp3Tags.ID3Tags)
       (rest : List (String × WriteMp3Tags.ID3Tags)),
      WriteMp3Tags.execute_writes pre fs false = (evs, fs2, none) →
      WriteMp3Tags.findFile fs2 p = none →
      WriteMp3Tags.execute_writes (pre ++ (p, t) :: rest) fs false =
        (evs, fs2, some "FileNotFoundError")) :=
  ⟨rename_files_commit_abort, execute_writes_commit_abort⟩

/-- C2 witness: both abort statements applied at concrete batches in
which the middle item fails and a later item is left unexecuted. -/
theorem commit_failure_aborts_batch_witness :
    RenameMp3.rename_files [("c.mp3", "z.mp3")] ["c.mp3", "b.mp3"] false =
      ([], ["b.mp3", "z.mp3"], none) ∧
    RenameMp3.fsRename ["b.mp3", "z.mp3"] "a.mp3" "x.mp3" =
      Except.error "FileNotFoundError" ∧
    RenameMp3.rename_files
      [("c.mp3", "z.mp3"), ("a.mp3", "x.mp3"), ("b.mp3", "y.mp3")]
      ["c.mp3", "b.mp3"] false =
      ([], ["b.mp3", "z.mp3"], some "FileNotFoundError") ∧
    WriteMp3Tags.execute_writes [] [] false = ([], [], none) ∧
    WriteMp3Tags.findFile [] "a.mp3" = none ∧
    WriteMp3Tags.execute_writes [("a.mp3", ⟨"T", "A", "B", 1⟩)] [] false =
      ([], [], some "FileNotFoundError") :=
  ⟨by decide, by rfl,
    commit_failure_aborts_batch.1 [("c.mp3", "z.mp3")] ["c.mp3", "b.mp3"]
      ["b.mp3", "z.mp3"] "a.mp3" "x.mp3" "FileNotFoundError"
      [("b.mp3", "y.mp3")] (by decide) (by rfl),
    by decide, by decide,
    commit_failure_aborts_batch.2 [] [] [] [] "a.mp3" ⟨"T", "A", "B", 1⟩ []
      (by decide) (by decide)⟩

/-- C3 counterexample: on [] - 0 Hello.mp3 the TagParser returns a
record with trackNumber 0 (the track-number branch accepted the
non-positive integer 0) and with empty album and performer, falsifying
all three parts of the claimed invariant at once. -/
theorem parsed_tag_invariants_counterexample :
    WriteMp3Tags.parse_file_name "[] - 0 Hello.mp3" =
      some ⟨"Hello ()", "", "", 0⟩ ∧
    ¬ ((1 : Int) ≤ 0) :=
  ⟨by decide, by decide⟩

/-- C3 (amended): the track-number branch accepts any first piece that
Python int() parses — including zero and negative values — and uses
that integer as trackNumber, falling back to 1 otherwise; album and
performer are the verbatim bracket contents and post-bracket remainder
and may be empty, as the record parsed from [Voice] - -2 Night.mp3
shows. -/
theorem parsed_tag_fields_characterization :
    (∀ track_part artist_name : String,
      (WriteMp3Tags.extract_track_info track_part artist_name).1 =
        (match pySplitSpace1 track_part.data with
         | [f, _] => (pythonIntParse f).getD 1
         | _ => 1)) ∧
    WriteMp3Tags.parse_file_name "[Voice] - -2 Night.mp3" =
      some ⟨"Night ()", "", "Voice", -2⟩ := by
  refine ⟨fun track_part artist_name => ?_, by decide⟩
  cases h : pySplitSpace1 track_part.data with
  | nil => simp [WriteMp3Tags.extract_track_info, h]
  | cons f rest =>
    cases rest with
    | nil => simp [WriteMp3Tags.extract_track_info, h]
    | cons s rest2 =>
      cases rest2 with
      | nil =>
        cases hi : pythonIntParse f <;>
          simp [WriteMp3Tags.extract_track_info, h, hi]
      | cons u rest3 => simp [WriteMp3Tags.extract_track_info, h]

/-- C4 counterexample: EX__Greeting.mp3 starts with the EX_ marker and
its remainder splits into the two segments [empty, Greeting]; the
NameParser accepts it and returns a record whose character field is
empty, falsifying the non-empty invariant and the claim that the
extra-variant branch only matches two non-empty segments. -/
theorem parsed_name_invariants_counterexample :
    RenameMp3.parse_file_name "EX__Greeting.mp3" =
      some ⟨"", "Greeting", true⟩ ∧
    ("" : String).length = 0 :=
  ⟨by decide, by decide⟩

/-- C4 (amended): for a filename starting with the EX_ marker, the
NameParser matches exactly when the slice dropping the marker and the
last four characters splits on underscores into exactly two segments,
and it returns those segments verbatim as character and suffix —
segments may be empty, so the fields are not guaranteed non-empty. -/
theorem ex_convention_characterization :
    ∀ s : String, List.isPrefixOf ['E', 'X', '_'] s.data = true →
      RenameMp3.parse_file_name s =
        (match pySplitOn '_' (pySliceDropLast 4 (s.data.drop 3)) with
         | [a, b] => some ⟨String.mk a, String.mk b, true⟩
         | _ => none) := by
  intro s h
  simp [RenameMp3.parse_file_name, h]

/-- C4 witness: the characterization applied at EX_A_B.mp3. -/
theorem ex_convention_characterization_witness :
    List.isPrefixOf ['E', 'X', '_'] ("EX_A_B.mp3" : String).data = true ∧
    RenameMp3.parse_file_name "EX_A_B.mp3" = some ⟨"A", "B", true⟩ :=
  ⟨by decide,
    (ex_convention_characterization "EX_A_B.mp3" (by decide)).trans (by decide)⟩

/-- C5 counterexample: on the spaceless track part Hello with performer
Alice the fallback produces trackTitle Hello (Alice), not the entire
track part Hello as claimed — the performer decoration is applied to
the fallback title as well. -/
theorem fallback_title_counterexample :
    WriteMp3Tags.extract_track_info "Hello" "Alice" = (1, "Hello (Alice)") ∧
    ("Hello (Alice)" : String) ≠ "Hello" :=
  ⟨by decide, by decide⟩

/-- C5 (amended): when the track part has no internal space, or its
first space-separated piece fails to parse as an integer, the TagParser
falls back to trackNumber 1 with a title built from the entire track
part by the performer-decoration rule (append the performer in
parentheses, placed before a trailing EX marker when one is present). -/
theorem fallback_track_characterization :
    (∀ (track_part artist_name : String) (l : List Char),
      pySplitSpace1 track_part.data = [l] →
      WriteMp3Tags.extract_track_info track_part artist_name =
        (1, track_part ++ " (" ++ artist_name ++ ")")) ∧
    (∀ (track_part artist_name : String) (f s : List Char),
      pySplitSpace1 track_part.data = [f, s] →
      pythonIntParse f = none →
      WriteMp3Tags.extract_track_info track_part artist_name =
        (1, WriteMp3Tags.ex_decorate track_part artist_name)) := by
  constructor
  · intro track_part artist_name l h
    simp [WriteMp3Tags.extract_track_info, h]
  · intro track_part artist_name f s h hi
    simp [WriteMp3Tags.extract_track_info, h, hi]

/-- C5 witness: both fallback branches applied at concrete track parts,
with the right-hand sides evaluated to literal strings. -/
theorem fallback_track_characterization_witness :
    pySplitSpace1 ("Hi" : String).data = [['H', 'i']] ∧
    WriteMp3Tags.extract_track_info "Hi" "Ann" = (1, "Hi (Ann)") ∧
    pySplitSpace1 ("Foo EX" : String).data = [['F', 'o', 'o'], ['E', 'X']] ∧
    pythonIntParse ['F', 'o', 'o'] = none ∧
    WriteMp3Tags.extract_track_info "Foo EX" "Bar" = (1, "Foo (Bar) EX") :=
  ⟨by decide,
    (fallback_track_characterization.1 "Hi" "Ann" ['H', 'i'] (by decide)).trans
      (by decide),
    by decide, by decide,
    (fallback_track_characterization.2 "Foo EX" "Bar" ['F', 'o', 'o'] ['E', 'X']
      (by decide) (by decide)).trans (by decide)⟩

/-- C6: dry-run execution mutates nothing and emits exactly one
simulated event per planned item: for both executors the state comes
back unchanged, no error occurs, and the event list is exactly the
per-item list of would-rename / would-process reports (no success
outcome exists among them). -/
theorem dry_run_no_mutation :
    (∀ (items : List (String × String)) (fs : List String),
      RenameMp3.rename_files items fs true =
        (items.map (fun p => RenameMp3.RenameEvent.wouldRename p.1 p.2), fs, none) ∧
      (RenameMp3.rename_files items fs true).1.length = items.length) ∧
    (∀ (items : List (String × WriteMp3Tags.ID3Tags)) (fs : WriteMp3Tags.TagFS),
      WriteMp3Tags.execute_writes items fs true =
        (items.map (fun p => WriteMp3Tags.TagEvent.wouldProcess p.1 p.2), fs, none) ∧
      (WriteMp3Tags.execute_writes items fs true).1.length = items.length) := by
  constructor
  · intro items fs
    refine ⟨rename_files_dry_run_eq items fs, ?_⟩
    rw [rename_files_dry_run_eq items fs]
    simp
  · intro items fs
    refine ⟨execute_writes_dry_run_eq items fs, ?_⟩
    rw [execute_writes_dry_run_eq items fs]
    simp

/-- C7: the NameSynthesizer output is exactly
[suffix]character - index suffix marker .mp3 with index 02 and marker
EX when isExtra and index 01 with no marker otherwise, and the
EX_Alice_Greeting.mp3 example parses and synthesizes as the
specification states. -/
theorem synthesizer_output_format :
    (∀ p : RenameMp3.ParsedName,
      RenameMp3.generate_new_file_name p =
        "[" ++ p.Suffix ++ "]" ++ p.Character ++ " - " ++
          (if p.IsEX then "02" else "01") ++ " " ++ p.Suffix ++
          (if p.IsEX then " EX" else "") ++ ".mp3") ∧
    RenameMp3.parse_file_name "EX_Alice_Greeting.mp3" =
      some ⟨"Alice", "Greeting", true⟩ ∧
    RenameMp3.generate_new_file_name ⟨"Alice", "Greeting", true⟩ =
      "[Greeting]Alice - 02 Greeting EX.mp3" :=
  ⟨fun p => rfl, by decide, by decide⟩

/-- C8: a parsed title carrying the trailing EX marker is not stripped:
the performer in parentheses is inserted before the marker, and a title
without the marker gets the performer appended; the
[Greeting]Alice - 01 Hello.mp3 example yields trackTitle
Hello (Alice). -/
theorem ex_marker_incorporation :
    (∀ u a : String,
      WriteMp3Tags.ex_decorate (u ++ " EX") a = u ++ " (" ++ a ++ ") EX") ∧
    (∀ t a : String, List.isSuffixOf [' ', 'E', 'X'] t.data = false →
      WriteMp3Tags.ex_decorate t a = t ++ " (" ++ a ++ ")") ∧
    WriteMp3Tags.parse_file_name "[Greeting]Alice - 01 Hello.mp3" =
      some ⟨"Hello (Alice)", "Alice", "Greeting", 1⟩ := by
  refine ⟨fun u a => ?_, fun t a h => ?_, by decide⟩
  · obtain ⟨l⟩ := u
    show WriteMp3Tags.ex_decorate (String.mk (l ++ [' ', 'E', 'X'])) a = _
    have hlen : pySliceDropLast 3 (l ++ [' ', 'E', 'X']) = l :=
      pySliceDropLast_append l [' ', 'E', 'X']
    simp [WriteMp3Tags.ex_decorate, isSuffixOf_append, hlen]
  · simp [WriteMp3Tags.ex_decorate, h]

/-- C8 witness: the no-marker branch applied at the title Hello, and
the marker branch at the title Foo EX. -/
theorem ex_marker_incorporation_witness :
    List.isSuffixOf [' ', 'E', 'X'] ("Hello" : String).data = false ∧
    WriteMp3Tags.ex_decorate "Hello" "Bar" = "Hello (Bar)" ∧
    WriteMp3Tags.ex_decorate ("Foo" ++ " EX") "Bar" = "Foo (Bar) EX" :=
  ⟨by decide,
    (ex_marker_incorporation.2.1 "Hello" "Bar" (by decide)).trans (by decide),
    (ex_marker_incorporation.1 "Foo" "Bar").trans (by decide)⟩

/-- C9: the Normalizer — NFKC normalization as modelled by the UAX #15
decompose-reorder-compose pipeline over this repertoire — is a total
function on strings and is idempotent, for the copy defined in each of
the two modules. -/
theorem normalizer_idempotent :
    (∀ s : String,
      RenameMp3.normalize_file_name (RenameMp3.normalize_file_name s) =
        RenameMp3.normalize_file_name s) ∧
    (∀ s : String,
      WriteMp3Tags.normalize_file_name (WriteMp3Tags.normalize_file_name s) =
        WriteMp3Tags.normalize_file_name s) :=
  ⟨fun s => nfkc_idem s, fun s => nfkc_idem s⟩

/-- C10: the TagParser rejects any filename that does not end in .mp3
before any structural check — it returns none for every such input. -/
theorem tag_parser_requires_mp3 :
    ∀ s : String, List.isSuffixOf ['.', 'm', 'p', '3'] s.data = false →
      WriteMp3Tags.parse_file_name s = none := by
  intro s h
  simp [WriteMp3Tags.parse_file_name, h]

/-- C10 witness: the rejection applied at foo.wav. -/
theorem tag_parser_requires_mp3_witness :
    List.isSuffixOf ['.', 'm', 'p', '3'] ("foo.wav" : String).data = false ∧
    WriteMp3Tags.parse_file_name "foo.wav" = none :=
  ⟨by decide, tag_parser_requires_mp3 "foo.wav" (by decide)⟩

end NijisanjiVoice
